import Mathlib

/-!
Verification of the eng-pm-mediator notification bridge.

Shallow embedding of the issue-tracker abstraction and the
ticket-extraction/resolution pipeline:
  - src/utils/parser.ts   : extractTicketIds, parseCommits, getAllTicketIds,
                            isValidTicketId, detectIssueTracker
  - src/services/jira.ts  : JiraService (conversion, sprint test, status filter,
                            PM email, batch fetch wrapper)
  - src/services/linear.ts: LinearService (conversion, cycle-state derivation,
                            cycle test, status filter, per-id fetch loop)
  - src/services/tracker-factory.ts : createIssueTracker, getProjectKey
  - src/index.ts          : resolveSlackTarget

JavaScript `if (x)` truthiness on optional strings (undefined or empty string
are falsy) is modelled explicitly by `jsTruthy`.
-/

namespace PMUpdater

/-- JS truthiness of a `string | undefined` value: falsy iff absent or empty. -/
def jsTruthy : Option String → Bool
  | none => false
  | some s => s ≠ ""

/-- ASCII uppercase letter, the regex class `[A-Z]`. -/
def isUpperAZ (c : Char) : Bool := 'A' ≤ c && c ≤ 'Z'

/-- ASCII digit, the regex class `\d`. -/
def isDigit09 (c : Char) : Bool := '0' ≤ c && c ≤ '9'

/-- JS regex word character `\w` = `[A-Za-z0-9_]` (used by the boundary `\b`). -/
def isWordChar (c : Char) : Bool :=
  isUpperAZ c || ('a' ≤ c && c ≤ 'z') || isDigit09 c || c = '_'

/-! ## Data model (src/types/index.ts) -/

/-- Jira sprint state enumeration. -/
inductive SprintState where
  | active | future | closed
deriving DecidableEq, Repr

/-- Linear cycle state enumeration. -/
inductive CycleState where
  | started | unstarted | completed
deriving DecidableEq, Repr

/-- The sprint summary embedded in a generic `Issue`. -/
structure SprintInfo where
  name : String
  state : SprintState
deriving DecidableEq, Repr

/-- The cycle summary embedded in a generic `Issue`. -/
structure CycleInfo where
  name : String
  state : CycleState
deriving DecidableEq, Repr

/-- Assignee record of a generic `Issue`. -/
structure Assignee where
  name : String
  email : String
deriving DecidableEq, Repr

/-- Generic, tracker-agnostic issue (interface `Issue`). -/
structure Issue where
  id : String
  key : String
  summary : String
  status : String
  assignee : Option Assignee
  sprint : Option SprintInfo
  cycle : Option CycleInfo
  pmEmail : Option String
  url : String
deriving DecidableEq, Repr

/-- Tracker selection (`issueTracker: 'jira' | 'linear'`). -/
inductive TrackerKind where
  | jira | linear
deriving DecidableEq, Repr

/-- Resolved configuration snapshot (`Config`).  The PM mapping is a JSON
object, modelled as an association list with unique keys. -/
structure Config where
  issueTracker : TrackerKind
  jiraBaseUrl : Option String
  jiraEmail : Option String
  jiraApiToken : Option String
  jiraProjectKey : Option String
  linearApiKey : Option String
  linearTeamKey : Option String
  slackBotToken : String
  slackChannelOrUser : String
  environment : String
  pmMapping : Option (List (String × String))
  onlyActiveSprint : Bool
  ticketStatusFilter : Option (List String)
deriving Repr

/-! ## Linear cycle state (src/services/linear.ts, getCycleState) -/

/-- Backend-native Linear cycle; timestamps in epoch milliseconds. -/
structure LinearCycle where
  id : String
  name : String
  startsAt : Int
  endsAt : Int
  completedAt : Option Int
deriving DecidableEq, Repr

/-- `LinearService.getCycleState`: derives the cycle state from its timestamps
relative to the current time `now` (`new Date()`). -/
def getCycleState (now : Int) : Option LinearCycle → CycleState
  | none => .unstarted
  | some cycle =>
    if cycle.completedAt.isSome then .completed
    else if now < cycle.startsAt then .unstarted
    else if cycle.startsAt ≤ now ∧ now ≤ cycle.endsAt then .started
    else .completed

/-! ## Active sprint / cycle tests -/

/-- `JiraService.isInActiveSprint`: non-null sprint with state `active`. -/
def jiraIsInActiveSprint (issue : Issue) : Bool :=
  match issue.sprint with
  | none => false
  | some sprint => sprint.state == SprintState.active

/-- `LinearService.isInActiveSprint`: non-null cycle with state `started`. -/
def linearIsInActiveSprint (issue : Issue) : Bool :=
  match issue.cycle with
  | none => false
  | some cycle => cycle.state == CycleState.started

/-! ## Status filters -/

/-- `JiraService.filterByStatus`: identity when the allow-list is absent or
empty, otherwise an `includes` filter on the exact status string. -/
def jiraFilterByStatus (issues : List Issue) (allowedStatuses : Option (List String)) :
    List Issue :=
  match allowedStatuses with
  | none => issues
  | some allowed =>
    if allowed.length = 0 then issues
    else issues.filter (fun issue => allowed.contains issue.status)

/-- `LinearService.filterByStatus`: textually identical to the Jira variant. -/
def linearFilterByStatus (issues : List Issue) (allowedStatuses : Option (List String)) :
    List Issue :=
  match allowedStatuses with
  | none => issues
  | some allowed =>
    if allowed.length = 0 then issues
    else issues.filter (fun issue => allowed.contains issue.status)

/-! ## Jira-native representation and conversion (src/services/jira.ts) -/

/-- A Jira user record (assignee / reporter / custom PM field). -/
structure JiraUser where
  accountId : String
  emailAddress : String
  displayName : String
deriving DecidableEq, Repr

/-- A Jira status record. -/
structure JiraStatus where
  name : String
  statusCategoryName : String
deriving DecidableEq, Repr

/-- A backend-native Jira sprint. -/
structure JiraSprint where
  id : Int
  name : String
  state : SprintState
  startDate : Option String
  endDate : Option String
  goal : Option String
deriving DecidableEq, Repr

/-- The `fields` object of a backend-native Jira issue. -/
structure JiraFields where
  summary : String
  status : JiraStatus
  assignee : Option JiraUser
  reporter : Option JiraUser
  sprint : Option JiraSprint
  customfield_pm : Option JiraUser
deriving DecidableEq, Repr

/-- A backend-native Jira issue. -/
structure JiraIssue where
  id : String
  key : String
  fields : JiraFields
  self : String
deriving DecidableEq, Repr

/-- JS optional-chain `user?.emailAddress` followed by a truthiness test:
yields the email only when the user is present and the email is non-empty. -/
def jiraUserEmail : Option JiraUser → Option String
  | none => none
  | some u => if u.emailAddress ≠ "" then some u.emailAddress else none

/-- `JiraService.getJiraPmEmail`: the custom PM field's email first, else the
reporter's email, else null. -/
def getJiraPmEmail (jiraIssue : JiraIssue) : Option String :=
  match jiraUserEmail jiraIssue.fields.customfield_pm with
  | some e => some e
  | none =>
    match jiraUserEmail jiraIssue.fields.reporter with
    | some e => some e
    | none => none

/-- `JiraService.getIssueUrl`: `baseUrl + "/browse/" + ticketId`. -/
def jiraGetIssueUrl (baseUrl : String) (ticketId : String) : String :=
  baseUrl ++ "/browse/" ++ ticketId

/-- `JiraService.convertToGenericIssue`. -/
def jiraConvertToGenericIssue (baseUrl : String) (jiraIssue : JiraIssue) : Issue :=
  { id := jiraIssue.id
    key := jiraIssue.key
    summary := jiraIssue.fields.summary
    status := jiraIssue.fields.status.name
    assignee := jiraIssue.fields.assignee.map
      (fun a => { name := a.displayName, email := a.emailAddress })
    sprint := jiraIssue.fields.sprint.map
      (fun s => { name := s.name, state := s.state })
    cycle := none
    pmEmail := getJiraPmEmail jiraIssue
    url := jiraGetIssueUrl baseUrl jiraIssue.key }

/-! ## Linear-native representation and conversion (src/services/linear.ts) -/

/-- Workflow state of a Linear issue. -/
structure LinearState where
  name : String
  type : String
deriving DecidableEq, Repr

/-- A Linear user record. -/
structure LinearUser where
  name : String
  email : String
deriving DecidableEq, Repr

/-- A Linear team record. -/
structure LinearTeam where
  key : String
  name : String
deriving DecidableEq, Repr

/-- A backend-native Linear issue. -/
structure LinearIssue where
  id : String
  identifier : String
  title : String
  url : String
  state : LinearState
  assignee : Option LinearUser
  cycle : Option LinearCycle
  team : LinearTeam
deriving DecidableEq, Repr

/-- `LinearService.convertToGenericIssue`; `now` is the ambient clock consumed
by `getCycleState`. -/
def linearConvertToGenericIssue (now : Int) (linearIssue : LinearIssue) : Issue :=
  { id := linearIssue.id
    key := linearIssue.identifier
    summary := linearIssue.title
    status := linearIssue.state.name
    assignee := linearIssue.assignee.map
      (fun a => { name := a.name, email := a.email })
    sprint := none
    cycle := linearIssue.cycle.map
      (fun c => { name := c.name, state := getCycleState now (some c) })
    pmEmail := none
    url := linearIssue.url }

/-- `JiraService.getPmEmail` on a generic issue: the pre-extracted field. -/
def jiraGetPmEmail (issue : Issue) : Option String := issue.pmEmail

/-- `LinearService.getPmEmail` on a generic issue: the pre-extracted field
(always null for issues this adapter converted). -/
def linearGetPmEmail (issue : Issue) : Option String := issue.pmEmail

/-! ## Tracker factory (src/services/tracker-factory.ts) -/

/-- `ConfigurationError` with its message. -/
structure ConfigurationError where
  message : String
deriving DecidableEq, Repr

/-- The adapter constructed by the factory, identified by its constructor
arguments (`new JiraService(baseUrl, email, apiToken)` /
`new LinearService(apiKey, teamKey)`). -/
inductive TrackerService where
  | jiraService (baseUrl : String) (email : String) (apiToken : String)
  | linearService (apiKey : String) (teamKey : Option String)
deriving DecidableEq, Repr

/-- `JiraService`'s constructor strips one trailing slash from the base URL
(`baseUrl.replace(/\/$/, '')`). -/
def stripTrailingSlash (s : String) : String :=
  if s.data.getLast? = some '/' then String.mk s.data.dropLast else s

/-- `createJiraService`: validates base URL, email and API token (JS
truthiness), raising a `ConfigurationError` naming the first missing field. -/
def createJiraService (config : Config) : Except ConfigurationError TrackerService :=
  if ¬ jsTruthy config.jiraBaseUrl then
    .error ⟨"jira_base_url is required when issue_tracker is \"jira\""⟩
  else if ¬ jsTruthy config.jiraEmail then
    .error ⟨"jira_email is required when issue_tracker is \"jira\""⟩
  else if ¬ jsTruthy config.jiraApiToken then
    .error ⟨"jira_api_token is required when issue_tracker is \"jira\""⟩
  else
    .ok (.jiraService (stripTrailingSlash (config.jiraBaseUrl.getD ""))
      (config.jiraEmail.getD "") (config.jiraApiToken.getD ""))

/-- `createLinearService`: validates the API key (JS truthiness). -/
def createLinearService (config : Config) : Except ConfigurationError TrackerService :=
  if ¬ jsTruthy config.linearApiKey then
    .error ⟨"linear_api_key is required when issue_tracker is \"linear\""⟩
  else
    .ok (.linearService (config.linearApiKey.getD "") config.linearTeamKey)

/-- `createIssueTracker`: dispatches on the configured tracker variant. -/
def createIssueTracker (config : Config) : Except ConfigurationError TrackerService :=
  match config.issueTracker with
  | .jira => createJiraService config
  | .linear => createLinearService config

/-- `getProjectKey`: the Jira project key or the Linear team key. -/
def getProjectKey (config : Config) : Option String :=
  match config.issueTracker with
  | .jira => config.jiraProjectKey
  | .linear => config.linearTeamKey

/-! ## Batch fetch wrappers (adapter `getIssues`) -/

/-- Typed tracker error (`JiraApiError` / `LinearApiError`). -/
structure TrackerError where
  message : String
  statusCode : Option Nat
deriving DecidableEq, Repr

/-- `JiraService.getIssues`: empty input short-circuits to `[]`; otherwise the
batched search (`fetchBatch` embeds `getJiraIssues`, which may raise a
`TrackerError`) is converted issue-by-issue, and a raised error is caught,
logged and degraded to `[]`. -/
def jiraGetIssues (fetchBatch : List String → Except TrackerError (List JiraIssue))
    (baseUrl : String) (ticketIds : List String) : List Issue :=
  if ticketIds.length = 0 then []
  else
    match fetchBatch ticketIds with
    | .ok jiraIssues => jiraIssues.map (jiraConvertToGenericIssue baseUrl)
    | .error _ => []

/-- The sequential per-identifier loop inside `LinearService.getIssues`:
`fetchOne` embeds `this.getIssue` (`ok none` = not found / team-scope mismatch
/ GraphQL errors; a raised `TrackerError` aborts the loop). -/
def linearGetIssuesLoop (fetchOne : String → Except TrackerError (Option Issue)) :
    List String → Except TrackerError (List Issue)
  | [] => .ok []
  | issueId :: rest =>
    match fetchOne issueId with
    | .error e => .error e
    | .ok none => linearGetIssuesLoop fetchOne rest
    | .ok (some issue) =>
      (linearGetIssuesLoop fetchOne rest).map (fun issues => issue :: issues)

/-- `LinearService.getIssues`: empty input short-circuits to `[]`; a
`TrackerError` raised inside the loop is caught, logged and degraded to `[]`. -/
def linearGetIssues (fetchOne : String → Except TrackerError (Option Issue))
    (issueIds : List String) : List Issue :=
  if issueIds.length = 0 then []
  else
    match linearGetIssuesLoop fetchOne issueIds with
    | .ok issues => issues
    | .error _ => []

/-! ## Destination resolution (src/index.ts, resolveSlackTarget) -/

/-- JS object property lookup `mapping[key]` on an association list. -/
def lookupMapping : List (String × String) → String → Option String
  | [], _ => none
  | (k, v) :: rest, key => if k = key then some v else lookupMapping rest key

/-- `resolveSlackTarget`: `lookupByEmail` embeds
`slackService.getUserIdByEmail`, `getPmEmail` embeds the active adapter's
`getPmEmail`.  Every JS `if (x)` on a string is a non-emptiness test; each
early `return` becomes its branch's value, and falling past the PM-mapping
block continues with the owner-email section (`emailOrDefault`, which itself
falls back to the configured channel). -/
def resolveSlackTarget (lookupByEmail : String → Option String)
    (getPmEmail : Issue → Option String)
    (issues : List Issue) (config : Config) : String :=
  let emailOrDefault : String :=
    match issues with
    | [] => config.slackChannelOrUser
    | firstIssue :: _ =>
      match getPmEmail firstIssue with
      | none => config.slackChannelOrUser
      | some pmEmail =>
        if pmEmail ≠ "" then
          match lookupByEmail pmEmail with
          | none => config.slackChannelOrUser
          | some slackUserId =>
            if slackUserId ≠ "" then slackUserId else config.slackChannelOrUser
        else config.slackChannelOrUser
  match config.pmMapping with
  | none => emailOrDefault
  | some mapping =>
    if 0 < mapping.length ∧ jsTruthy (getProjectKey config) = true then
      match lookupMapping mapping ((getProjectKey config).getD "") with
      | some projectMapping =>
        if projectMapping ≠ "" then projectMapping else emailOrDefault
      | none => emailOrDefault
    else emailOrDefault

/-- Steps (b) and (c) of the destination-resolution cascade, as the spec
words them: the first surviving issue's non-empty owner email, resolved by
the platform to a non-empty user id, else the configured default. -/
def ownerOrDefault (lookupByEmail : String → Option String)
    (getPmEmail : Issue → Option String)
    (issues : List Issue) (config : Config) : String :=
  match issues with
  | [] => config.slackChannelOrUser
  | firstIssue :: _ =>
    match getPmEmail firstIssue with
    | none => config.slackChannelOrUser
    | some pmEmail =>
      if pmEmail ≠ "" then
        match lookupByEmail pmEmail with
        | none => config.slackChannelOrUser
        | some slackUserId =>
          if slackUserId ≠ "" then slackUserId else config.slackChannelOrUser
      else config.slackChannelOrUser

/-- The destination-resolution priority cascade as specified (amended with
the JS truthiness the code applies): a non-empty mapping entry for the
non-empty active grouping key wins unconditionally; otherwise the owner-email
path; otherwise the configured default. -/
def resolveTargetSpec (lookupByEmail : String → Option String)
    (getPmEmail : Issue → Option String)
    (issues : List Issue) (config : Config) : String :=
  match config.pmMapping, getProjectKey config with
  | some mapping, some key =>
    if key ≠ "" then
      match lookupMapping mapping key with
      | some entry =>
        if entry ≠ "" then entry
        else ownerOrDefault lookupByEmail getPmEmail issues config
      | none => ownerOrDefault lookupByEmail getPmEmail issues config
    else ownerOrDefault lookupByEmail getPmEmail issues config
  | _, _ => ownerOrDefault lookupByEmail getPmEmail issues config

/-! ## Ticket extraction (src/utils/parser.ts)

The pattern is the JS regex `/\b([A-Z]{2,10}-\d+)\b/g`.  A word boundary
`\b` holds between a word character (`[A-Za-z0-9_]`) and a non-word
character (or an edge of the string). -/

/-- The trailing `\b` after the digit run: holds at the end of input or
before a non-word character. -/
def boundaryAfter : List Char → Bool
  | [] => true
  | c :: _ => !isWordChar c

/-- One attempt of `[A-Z]{2,10}-\d+\b` at the head of `l` (the leading `\b`
is checked by the caller).  On success returns the matched characters and the
remaining input.  The letter and digit runs are maximal, exactly as the
greedy engine consumes them: a longer letter run than ten can never reach the
hyphen, and a digit followed by a word character fails the trailing
boundary. -/
def tryMatchAt (l : List Char) : Option (List Char × List Char) :=
  if 2 ≤ (l.takeWhile isUpperAZ).length ∧ (l.takeWhile isUpperAZ).length ≤ 10 then
    match l.dropWhile isUpperAZ with
    | '-' :: rest2 =>
      if 1 ≤ (rest2.takeWhile isDigit09).length ∧
          boundaryAfter (rest2.dropWhile isDigit09) = true then
        some (l.takeWhile isUpperAZ ++ '-' :: rest2.takeWhile isDigit09,
          rest2.dropWhile isDigit09)
      else none
    | _ => none
  else none

/-- `message.match(/\b([A-Z]{2,10}-\d+)\b/g)`: walks the input left to right;
`prevIsWord` records whether the character before the current position is a
word character (so the leading `\b` of a match holds exactly when it is
false, the first matched character being a letter).  After a match the scan
resumes at `lastIndex`, i.e. right after the digits. -/
def scanMatches (prevIsWord : Bool) (l : List Char) : List (List Char) :=
  match l with
  | [] => []
  | c :: rest =>
    if prevIsWord then
      scanMatches (isWordChar c) rest
    else
      match h : tryMatchAt (c :: rest) with
      | some (m, rest3) => m :: scanMatches true rest3
      | none => scanMatches (isWordChar c) rest
termination_by l.length
decreasing_by
  · simp
  · simp only [tryMatchAt] at h
    split at h
    case isTrue =>
      split at h
      case _ rest2 heq =>
        split at h
        case isTrue =>
          simp only [Option.some.injEq, Prod.mk.injEq] at h
          obtain ⟨hm, hr⟩ := h
          rename_i t hpw hcond hx hdig
          have hdropAll := congrArg List.length heq
          have hdropLe := (List.dropWhile_sublist (l := c :: t) isUpperAZ).length_le
          rw [hdropAll] at hdropLe
          have hdrop3 : rest3.length ≤ rest2.length := by
            rw [← hr]; exact (List.dropWhile_sublist isDigit09).length_le
          simp only [List.length_cons] at hdropLe ⊢
          omega
        case isFalse => exact absurd h (by simp)
      case _ => exact absurd h (by simp)
    case isFalse => exact absurd h (by simp)
  · simp

/-- Specification-side enumeration of the whole-word occurrences of the
ticket pattern, in order of appearance: every position of the input is a
candidate; a position where the previous character is not a word character
and the pattern (with its trailing boundary) matches contributes the matched
identifier.  Unlike `scanMatches`, it does not skip past a match. -/
def occurrencesFrom (prevIsWord : Bool) : List Char → List (List Char)
  | [] => []
  | c :: rest =>
    (if prevIsWord = false then
      match tryMatchAt (c :: rest) with
      | some (m, _) => [m]
      | none => []
    else []) ++ occurrencesFrom (isWordChar c) rest

/-- `[...new Set(xs)]`: keeps the first occurrence of each element, in
insertion order (`seen` accumulates the elements already emitted). -/
def dedupFirstAux (seen : List String) : List String → List String
  | [] => []
  | x :: xs =>
    if x ∈ seen then dedupFirstAux seen xs
    else x :: dedupFirstAux (x :: seen) xs

/-- `[...new Set(xs)]` from the empty set. -/
def dedupFirst (l : List String) : List String := dedupFirstAux [] l

/-- `extractTicketIds` (src/utils/parser.ts): all regex matches of the issue
pattern, deduplicated keeping first occurrences. -/
def extractTicketIds (message : String) : List String :=
  dedupFirst ((scanMatches false message.data).map (fun m => String.mk m))

/-- Specification-side reading of "unique identifiers in first-seen order":
append each identifier the first time it is seen. -/
def firstSeen (l : List String) : List String :=
  l.foldl (fun acc x => if x ∈ acc then acc else acc ++ [x]) []

/-! ## Commit parsing (src/utils/parser.ts) -/

/-- Commit author from the GitHub webhook payload. -/
structure CommitAuthor where
  name : String
  email : String
deriving DecidableEq, Repr

/-- A commit object from the GitHub webhook payload. -/
structure Commit where
  id : String
  message : String
  author : CommitAuthor
deriving DecidableEq, Repr

/-- `ParsedCommit` (src/types/index.ts). -/
structure ParsedCommit where
  sha : String
  message : String
  author : String
  ticketIds : List String
deriving DecidableEq, Repr

/-- `message.split('\n')[0]`: the first line of a commit message. -/
def firstLine (s : String) : String :=
  String.mk (s.data.takeWhile (fun c => !(c == '\n')))

/-- JS `l.startsWith(pat)` on character lists. -/
def listStartsWith : List Char → List Char → Bool
  | _, [] => true
  | [], _ :: _ => false
  | c :: cs, p :: ps => c == p && listStartsWith cs ps

/-- JS `s.startsWith(pat)`. -/
def strStartsWith (s pat : String) : Bool := listStartsWith s.data pat.data

/-- `parseCommits`: extracts each commit's ticket ids, filters them to those
starting with `projectKey + "-"` when a truthy project key is supplied, and
records the commit only when some ticket id survives. -/
def parseCommits (commits : List Commit) (projectKey : Option String) :
    List ParsedCommit :=
  match commits with
  | [] => []
  | commit :: rest =>
    let ticketIds := extractTicketIds commit.message
    let filteredTickets :=
      if jsTruthy projectKey then
        ticketIds.filter (fun tid => strStartsWith tid (projectKey.getD "" ++ "-"))
      else ticketIds
    if 0 < filteredTickets.length then
      { sha := commit.id
        message := firstLine commit.message
        author := commit.author.name
        ticketIds := filteredTickets } :: parseCommits rest projectKey
    else parseCommits rest projectKey

/-- `getAllTicketIds`: merge every commit's ids, deduplicated first-seen. -/
def getAllTicketIds (parsedCommits : List ParsedCommit) : List String :=
  dedupFirst (parsedCommits.map (fun commit => commit.ticketIds)).flatten

/-! ## Tracker detection heuristic (src/utils/parser.ts) -/

/-- The anchored regex `^[A-Z]{2,10}-\d+$` (`isValidTicketId`) on a character
list: a maximal run of 2–10 uppercase letters, a hyphen, then only digits,
at least one. -/
def validTicketPattern (l : List Char) : Bool :=
  decide (2 ≤ (l.takeWhile isUpperAZ).length ∧ (l.takeWhile isUpperAZ).length ≤ 10) &&
    match l.dropWhile isUpperAZ with
    | '-' :: ds => !ds.isEmpty && ds.all isDigit09
    | _ => false

/-- `isValidTicketId`. -/
def isValidTicketId (ticketId : String) : Bool := validTicketPattern ticketId.data

/-- Result of `detectIssueTracker`. -/
inductive TrackerGuess where
  | jira | linear | unknown
deriving DecidableEq, Repr

/-- `detectIssueTracker`: heuristic on the part of the identifier before the
first hyphen (`issueId.split('-')[0]`). -/
def detectIssueTracker (issueId : String) : TrackerGuess :=
  if isValidTicketId issueId = false then .unknown
  else
    let teamPart := issueId.data.takeWhile (fun c => !(c == '-'))
    if teamPart.length ≤ 4 then .unknown
    else .jira

/-! ## Concrete values used by counterexamples and witnesses -/

/-- A jira-variant config with the three credential fields set and the
project key absent. -/
def jiraNoKeyConfig : Config :=
  { issueTracker := .jira
    jiraBaseUrl := some "https://company.atlassian.net"
    jiraEmail := some "dev@company.com"
    jiraApiToken := some "token123"
    jiraProjectKey := none
    linearApiKey := none
    linearTeamKey := none
    slackBotToken := "xoxb-1"
    slackChannelOrUser := "C0123456"
    environment := "staging"
    pmMapping := some []
    onlyActiveSprint := true
    ticketStatusFilter := none }

/-- A jira-variant config with the email missing. -/
def jiraNoEmailConfig : Config :=
  { jiraNoKeyConfig with jiraEmail := none, jiraProjectKey := some "PROJ" }

/-- A config whose PM mapping maps the active project key "AB" to the empty
string. -/
def emptyEntryConfig : Config :=
  { jiraNoKeyConfig with
    jiraProjectKey := some "AB"
    slackChannelOrUser := "CDEFAULT"
    pmMapping := some [("AB", "")] }

/-- A generic issue whose owner email is known. -/
def ownedIssue : Issue :=
  { id := "10002"
    key := "AB-7"
    summary := "Fix login"
    status := "In Progress"
    assignee := none
    sprint := some { name := "Sprint 1", state := .active }
    cycle := none
    pmEmail := some "pm@example.com"
    url := "https://company.atlassian.net/browse/AB-7" }

/-- A generic issue with no iteration at all. -/
def bareIssue : Issue :=
  { id := "10003"
    key := "AB-8"
    summary := "Cleanup"
    status := "Done"
    assignee := none
    sprint := none
    cycle := none
    pmEmail := none
    url := "https://company.atlassian.net/browse/AB-8" }

/-- A second generic issue, in progress, for filter examples. -/
def wipIssue : Issue :=
  { bareIssue with id := "10004", key := "AB-9", status := "In Progress" }

/-- A Slack directory resolving the owner of `ownedIssue`. -/
def sampleLookup : String → Option String :=
  fun email => if email = "pm@example.com" then some "U111AAA" else none

/-- A backend-native Jira issue carrying no sprint. -/
def sprintlessJiraIssue : JiraIssue :=
  { id := "10001"
    key := "PROJ-7"
    fields :=
      { summary := "Backlog task"
        status := { name := "To Do", statusCategoryName := "To Do" }
        assignee := none
        reporter := none
        sprint := none
        customfield_pm := none }
    self := "https://company.atlassian.net/rest/api/3/issue/10001" }

/-- A batched Jira fetch that raises a tracker error. -/
def failingBatch : List String → Except TrackerError (List JiraIssue) :=
  fun _ => .error { message := "Jira API error: Request failed with status code 500",
                    statusCode := some 500 }

/-- A per-identifier Linear fetch that raises a tracker error. -/
def failingFetchOne : String → Except TrackerError (Option Issue) :=
  fun _ => .error { message := "Linear API error: Request failed with status code 500",
                    statusCode := some 500 }

/-- A commit mentioning tickets of two different projects. -/
def mixedCommit : Commit :=
  { id := "f00dfeedf00dfeedf00dfeedf00dfeedf00dfeed"
    message := "AB-1 CD-2 fix login"
    author := { name := "Alice", email := "alice@example.com" } }

/-! # Theorems -/

/-- C1 counterexample: a config selecting the jira tracker with base URL,
email and API token present but the project key absent is accepted —
`createIssueTracker` constructs the adapter instead of raising a
configuration error. -/
theorem C1_counterexample :
    jiraNoKeyConfig.issueTracker = TrackerKind.jira ∧
    jiraNoKeyConfig.jiraProjectKey = none ∧
    createIssueTracker jiraNoKeyConfig =
      .ok (.jiraService "https://company.atlassian.net" "dev@company.com" "token123") :=
  ⟨rfl, rfl, rfl⟩

/-- C1 (amended): for the jira variant, `createIssueTracker` validates the
presence (JS truthiness) of base URL, account email and secret token — but
not the project key — raising a `ConfigurationError` naming the first missing
field, and succeeding exactly when all three are present, for any value of
the project key. -/
theorem C1_jira_validation (config : Config)
    (hjira : config.issueTracker = TrackerKind.jira) :
    ((createIssueTracker config).isOk = true ↔
      (jsTruthy config.jiraBaseUrl = true ∧ jsTruthy config.jiraEmail = true ∧
        jsTruthy config.jiraApiToken = true)) ∧
    (∀ pk, createIssueTracker { config with jiraProjectKey := pk } =
      createIssueTracker config) ∧
    (jsTruthy config.jiraBaseUrl = false →
      createIssueTracker config =
        .error { message := "jira_base_url is required when issue_tracker is \"jira\"" }) ∧
    (jsTruthy config.jiraBaseUrl = true → jsTruthy config.jiraEmail = false →
      createIssueTracker config =
        .error { message := "jira_email is required when issue_tracker is \"jira\"" }) ∧
    (jsTruthy config.jiraBaseUrl = true → jsTruthy config.jiraEmail = true →
      jsTruthy config.jiraApiToken = false →
      createIssueTracker config =
        .error { message := "jira_api_token is required when issue_tracker is \"jira\"" }) := by
  simp only [createIssueTracker, hjira]
  cases hb : jsTruthy config.jiraBaseUrl <;>
    cases he : jsTruthy config.jiraEmail <;>
      cases ht : jsTruthy config.jiraApiToken <;>
        simp [createJiraService, hb, he, ht, Except.isOk, Except.toBool]

/-- C1 witness: the missing-email case at a concrete config. -/
theorem C1_jira_validation_witness :
    createIssueTracker jiraNoEmailConfig =
      .error { message := "jira_email is required when issue_tracker is \"jira\"" } :=
  (C1_jira_validation jiraNoEmailConfig rfl).2.2.2.1 (by decide) (by decide)

/-- C3: the Linear adapter derives a cycle's state rather than storing it:
a set `completedAt` gives completed; else a current time before `startsAt`
gives unstarted; else a current time within `[startsAt, endsAt]` gives
started; otherwise completed. -/
theorem C3_cycle_state (now : Int) (c : LinearCycle) :
    (c.completedAt.isSome = true → getCycleState now (some c) = CycleState.completed) ∧
    (c.completedAt = none → now < c.startsAt →
      getCycleState now (some c) = CycleState.unstarted) ∧
    (c.completedAt = none → c.startsAt ≤ now → now ≤ c.endsAt →
      getCycleState now (some c) = CycleState.started) ∧
    (c.completedAt = none → c.startsAt ≤ now → c.endsAt < now →
      getCycleState now (some c) = CycleState.completed) := by
  unfold getCycleState
  refine ⟨fun h1 => ?_, fun h1 h2 => ?_, fun h1 h2 h3 => ?_, fun h1 h2 h3 => ?_⟩
  · simp [h1]
  · simp [h1, h2]
  · have h4 : ¬ now < c.startsAt := not_lt.mpr h2
    simp [h1, h4, h2, h3]
  · have h4 : ¬ now < c.startsAt := not_lt.mpr h2
    have h5 : ¬ (c.startsAt ≤ now ∧ now ≤ c.endsAt) := by omega
    simp [h1, h4, h5]

/-- C3 witness: a cycle spanning the current time with no completion date is
started. -/
theorem C3_cycle_state_witness :
    getCycleState 5 (some ⟨"cyc1", "Cycle 1", 0, 10, none⟩) = CycleState.started :=
  (C3_cycle_state 5 _).2.2.1 rfl (by decide) (by decide)

/-- C6: `isInActiveSprint` holds exactly when the issue carries an iteration
whose state marks it open — for the Jira adapter a non-null sprint in state
active, for the Linear adapter a non-null cycle in state started — and an
issue with no iteration yields false in both adapters. -/
theorem C6_active_iteration (issue : Issue) :
    (jiraIsInActiveSprint issue = true ↔
      ∃ s, issue.sprint = some s ∧ s.state = SprintState.active) ∧
    (linearIsInActiveSprint issue = true ↔
      ∃ c, issue.cycle = some c ∧ c.state = CycleState.started) ∧
    (issue.sprint = none → jiraIsInActiveSprint issue = false) ∧
    (issue.cycle = none → linearIsInActiveSprint issue = false) := by
  unfold jiraIsInActiveSprint linearIsInActiveSprint
  refine ⟨?_, ?_, fun h => by simp [h], fun h => by simp [h]⟩
  · cases h : issue.sprint with
    | none => simp [h]
    | some s => simp [h]
  · cases h : issue.cycle with
    | none => simp [h]
    | some c => simp [h]

/-- C6 witness: an issue with neither sprint nor cycle is inactive for both
adapters. -/
theorem C6_active_iteration_witness :
    jiraIsInActiveSprint bareIssue = false ∧ linearIsInActiveSprint bareIssue = false :=
  ⟨(C6_active_iteration bareIssue).2.2.1 rfl, (C6_active_iteration bareIssue).2.2.2 rfl⟩

/-- C8: for both adapters, `filterByStatus` is the identity when the
allow-list is absent or empty, and otherwise keeps, in order, exactly the
issues whose status string is a member (case-sensitive string equality) of
the allowed list. -/
theorem C8_filter_by_status (issues : List Issue) :
    (jiraFilterByStatus issues none = issues) ∧
    (jiraFilterByStatus issues (some []) = issues) ∧
    (linearFilterByStatus issues none = issues) ∧
    (linearFilterByStatus issues (some []) = issues) ∧
    (∀ allowed : List String, allowed ≠ [] →
      jiraFilterByStatus issues (some allowed) =
        issues.filter (fun issue => decide (issue.status ∈ allowed))) ∧
    (∀ allowed : List String, allowed ≠ [] →
      linearFilterByStatus issues (some allowed) =
        issues.filter (fun issue => decide (issue.status ∈ allowed))) := by
  refine ⟨rfl, rfl, rfl, rfl, fun allowed h => ?_, fun allowed h => ?_⟩ <;>
    · simp only [jiraFilterByStatus, linearFilterByStatus]
      rw [if_neg (by simpa using h)]
      refine List.filter_congr fun issue _ => ?_
      simp [List.contains, List.elem_eq_mem]

/-- C8 witness: a two-issue list filtered by the allow-list `["Done"]`. -/
theorem C8_filter_by_status_witness :
    jiraFilterByStatus [bareIssue, wipIssue] (some ["Done"]) = [bareIssue] := by
  rw [(C8_filter_by_status [bareIssue, wipIssue]).2.2.2.2.1 ["Done"] (by decide)]
  decide

/-- C9 counterexample: converting a Jira issue that carries no sprint yields
a generic issue with `sprint = none` and `cycle = none` — neither iteration
field is populated, so "exactly one is populated" fails. -/
theorem C9_counterexample :
    sprintlessJiraIssue.fields.sprint = none ∧
    (jiraConvertToGenericIssue "https://company.atlassian.net" sprintlessJiraIssue).sprint
      = none ∧
    (jiraConvertToGenericIssue "https://company.atlassian.net" sprintlessJiraIssue).cycle
      = none :=
  ⟨rfl, rfl, rfl⟩

/-- C9 (amended): conversions never populate both iteration fields — at most
one is set: the Jira conversion always leaves `cycle` null and the Linear
conversion always leaves `sprint` null (an issue without a backend-native
sprint/cycle has neither populated). -/
theorem C9_iteration_never_both (baseUrl : String) (j : JiraIssue)
    (now : Int) (l : LinearIssue) :
    ((jiraConvertToGenericIssue baseUrl j).cycle = none) ∧
    ((linearConvertToGenericIssue now l).sprint = none) ∧
    (((jiraConvertToGenericIssue baseUrl j).sprint.isSome &&
      (jiraConvertToGenericIssue baseUrl j).cycle.isSome) = false) ∧
    (((linearConvertToGenericIssue now l).sprint.isSome &&
      (linearConvertToGenericIssue now l).cycle.isSome) = false) := by
  refine ⟨rfl, rfl, ?_, ?_⟩ <;> simp [jiraConvertToGenericIssue, linearConvertToGenericIssue]

/-- C10: `detectIssueTracker` never answers linear — an invalid identifier is
unknown, a valid identifier whose part before the hyphen has length at most
four is unknown, and any other valid identifier is jira. -/
theorem C10_detect_tracker (issueId : String) :
    (detectIssueTracker issueId = TrackerGuess.jira ∨
      detectIssueTracker issueId = TrackerGuess.unknown) ∧
    (isValidTicketId issueId = false →
      detectIssueTracker issueId = TrackerGuess.unknown) ∧
    (isValidTicketId issueId = true →
      (issueId.data.takeWhile (fun c => !(c == '-'))).length ≤ 4 →
      detectIssueTracker issueId = TrackerGuess.unknown) ∧
    (isValidTicketId issueId = true →
      4 < (issueId.data.takeWhile (fun c => !(c == '-'))).length →
      detectIssueTracker issueId = TrackerGuess.jira) := by
  unfold detectIssueTracker
  by_cases hv : isValidTicketId issueId = false
  · simp [hv]
  · have hv' : isValidTicketId issueId = true := by
      cases hb : isValidTicketId issueId
      · exact absurd hb hv
      · rfl
    refine ⟨?_, fun hfalse => ?_, fun _ h4 => ?_, fun _ h4 => ?_⟩
    · by_cases h4 : (issueId.data.takeWhile (fun c => !(c == '-'))).length ≤ 4
      · right; simp [hv', h4]
      · left; simp [hv', h4]
    · rw [hv'] at hfalse; cases hfalse
    · simp [hv', h4]
    · simp [hv', Nat.not_le.mpr h4]

/-- C10 witness: a long-keyed valid identifier detects as jira; a short-keyed
valid identifier and a lowercase identifier detect as unknown. -/
theorem C10_detect_tracker_witness :
    detectIssueTracker "ABCDE-1" = TrackerGuess.jira ∧
    detectIssueTracker "AB-1" = TrackerGuess.unknown ∧
    detectIssueTracker "ab-1" = TrackerGuess.unknown :=
  ⟨(C10_detect_tracker "ABCDE-1").2.2.2 (by decide) (by decide),
   (C10_detect_tracker "AB-1").2.2.1 (by decide) (by decide),
   (C10_detect_tracker "ab-1").2.1 (by decide)⟩

/-- C4 counterexample: the configured mapping contains an entry for the
active grouping key "AB" (the empty string), yet `resolveSlackTarget`
consults the first issue's owner email and returns the Slack user id it
resolves to instead of that entry. -/
theorem C4_counterexample :
    emptyEntryConfig.pmMapping = some [("AB", "")] ∧
    getProjectKey emptyEntryConfig = some "AB" ∧
    lookupMapping [("AB", "")] "AB" = some "" ∧
    resolveSlackTarget sampleLookup jiraGetPmEmail [ownedIssue] emptyEntryConfig
      = "U111AAA" :=
  ⟨rfl, rfl, rfl, rfl⟩

/-- C4 (amended): destination resolution equals the strict priority cascade,
with the code's JS truthiness made explicit: (a) a non-empty mapping entry
for the non-empty active grouping key is returned unconditionally without
consulting issue data; (b) otherwise a non-empty owner email of the first
surviving issue that the platform resolves to a non-empty user id is
returned; (c) otherwise the statically configured default destination.
Exactly one destination results. -/
theorem C4_destination_priority (lookupByEmail : String → Option String)
    (getPmEmail : Issue → Option String) (issues : List Issue) (config : Config) :
    resolveSlackTarget lookupByEmail getPmEmail issues config =
      resolveTargetSpec lookupByEmail getPmEmail issues config := by
  unfold resolveSlackTarget resolveTargetSpec
  cases hpm : config.pmMapping with
  | none =>
    cases hk : getProjectKey config <;> simp [ownerOrDefault]
  | some mapping =>
    cases hk : getProjectKey config with
    | none => simp [hk, jsTruthy, ownerOrDefault]
    | some key =>
      by_cases hkey : key = ""
      · subst hkey
        simp [hk, jsTruthy, ownerOrDefault]
      · cases mapping with
        | nil => simp [hk, hkey, jsTruthy, ownerOrDefault, lookupMapping]
        | cons p rest =>
          simp only [hk, jsTruthy, Option.getD]
          rw [if_pos ⟨by simp, by simp [hkey]⟩]
          cases hl : lookupMapping (p :: rest) key <;>
            simp [hl, hkey, ownerOrDefault]

/-- C7: both adapters' `getIssues` return the empty list (not a failure) for
an empty identifier list, and degrade a tracker error raised inside the
batch fetch to the empty list instead of propagating it. -/
theorem C7_get_issues_degrade :
    (∀ fetchBatch baseUrl, jiraGetIssues fetchBatch baseUrl [] = []) ∧
    (∀ fetchBatch baseUrl ticketIds e, fetchBatch ticketIds = .error e →
      jiraGetIssues fetchBatch baseUrl ticketIds = []) ∧
    (∀ fetchOne, linearGetIssues fetchOne [] = []) ∧
    (∀ fetchOne issueIds e, linearGetIssuesLoop fetchOne issueIds = .error e →
      linearGetIssues fetchOne issueIds = []) := by
  refine ⟨fun fb u => rfl, fun fb u ids e h => ?_, fun f => rfl, fun f ids e h => ?_⟩
  · unfold jiraGetIssues
    split
    · rfl
    · rw [h]
  · unfold linearGetIssues
    split
    · rfl
    · rw [h]

/-- C7 witness: a failing batch fetch and a failing per-identifier fetch both
yield the empty issue list for a non-empty input. -/
theorem C7_get_issues_degrade_witness :
    jiraGetIssues failingBatch "https://company.atlassian.net" ["AB-1"] = [] ∧
    linearGetIssues failingFetchOne ["AB-1"] = [] :=
  ⟨C7_get_issues_degrade.2.1 failingBatch "https://company.atlassian.net" ["AB-1"]
      { message := "Jira API error: Request failed with status code 500",
        statusCode := some 500 } rfl,
   C7_get_issues_degrade.2.2.2 failingFetchOne ["AB-1"]
      { message := "Linear API error: Request failed with status code 500",
        statusCode := some 500 } rfl⟩

/-! ### Character-class and match-shape lemmas for the extraction regex -/

/-- An uppercase letter is a word character. -/
theorem isWordChar_of_upper {c : Char} (h : isUpperAZ c = true) : isWordChar c = true := by
  simp [isWordChar, h]

/-- A digit is a word character. -/
theorem isWordChar_of_digit {c : Char} (h : isDigit09 c = true) : isWordChar c = true := by
  simp [isWordChar, h]

/-- A digit is not an uppercase letter. -/
theorem not_upper_of_digit {c : Char} (h : isDigit09 c = true) : isUpperAZ c = false := by
  simp only [isDigit09, Bool.and_eq_true, decide_eq_true_eq] at h
  simp only [isUpperAZ, Bool.and_eq_false_iff, decide_eq_false_iff_not]
  left
  intro hA
  exact absurd (le_trans hA h.2) (by decide)

/-- Shape of a successful match attempt: the match is a 2–10 letter run, a
hyphen and a non-empty digit run; it is an initial part of the input and the
remainder starts at a word boundary. -/
theorem tryMatchAt_some {l m r : List Char} (h : tryMatchAt l = some (m, r)) :
    ∃ letters digits,
      m = letters ++ '-' :: digits ∧
      l = m ++ r ∧
      (∀ x ∈ letters, isUpperAZ x = true) ∧
      2 ≤ letters.length ∧ letters.length ≤ 10 ∧
      (∀ x ∈ digits, isDigit09 x = true) ∧
      1 ≤ digits.length ∧
      boundaryAfter r = true := by
  unfold tryMatchAt at h
  split at h
  case isFalse => exact absurd h (by simp)
  case isTrue hcond =>
    split at h
    case _ rest2 heq =>
      split at h
      case isFalse => exact absurd h (by simp)
      case isTrue hdig =>
        simp only [Option.some.injEq, Prod.mk.injEq] at h
        obtain ⟨hm, hr⟩ := h
        refine ⟨l.takeWhile isUpperAZ, rest2.takeWhile isDigit09, hm.symm, ?_,
          fun x hx => List.mem_takeWhile_imp hx, hcond.1, hcond.2,
          fun x hx => List.mem_takeWhile_imp hx, hdig.1, ?_⟩
        · rw [← hm, ← hr]
          have h1 : l.takeWhile isUpperAZ ++ l.dropWhile isUpperAZ = l :=
            List.takeWhile_append_dropWhile isUpperAZ l
          rw [heq] at h1
          have h2 : rest2.takeWhile isDigit09 ++ rest2.dropWhile isDigit09 = rest2 :=
            List.takeWhile_append_dropWhile isDigit09 rest2
          conv_lhs => rw [← h1, ← h2]
          simp
        · rw [← hr]; exact hdig.2
    case _ => exact absurd h (by simp)

/-- Appending past an all-satisfying run: `takeWhile` keeps the run. -/
theorem takeWhile_append_all {p : Char → Bool} (xs ys : List Char)
    (h : ∀ x ∈ xs, p x = true) :
    (xs ++ ys).takeWhile p = xs ++ ys.takeWhile p := by
  induction xs with
  | nil => rfl
  | cons x xs ih =>
    have hx : p x = true := h x (by simp)
    simp [List.cons_append, List.takeWhile_cons, hx,
      ih fun y hy => h y (by simp [hy])]

/-- Appending past an all-satisfying run: `dropWhile` skips the run. -/
theorem dropWhile_append_all {p : Char → Bool} (xs ys : List Char)
    (h : ∀ x ∈ xs, p x = true) :
    (xs ++ ys).dropWhile p = ys.dropWhile p := by
  induction xs with
  | nil => rfl
  | cons x xs ih =>
    have hx : p x = true := h x (by simp)
    simp [List.cons_append, List.dropWhile_cons, hx,
      ih fun y hy => h y (by simp [hy])]

/-- Builds a successful match attempt from its computed pieces. -/
theorem tryMatchAt_build (l letters ds r : List Char)
    (htw : l.takeWhile isUpperAZ = letters)
    (hdw : l.dropWhile isUpperAZ = '-' :: (ds ++ r))
    (hlen : 2 ≤ letters.length ∧ letters.length ≤ 10)
    (htd : (ds ++ r).takeWhile isDigit09 = ds)
    (hdd : (ds ++ r).dropWhile isDigit09 = r)
    (hds : 1 ≤ ds.length) (hb : boundaryAfter r = true) :
    tryMatchAt l = some (letters ++ '-' :: ds, r) := by
  unfold tryMatchAt
  rw [htw, hdw, if_pos hlen]
  show (if 1 ≤ ((ds ++ r).takeWhile isDigit09).length ∧
        boundaryAfter ((ds ++ r).dropWhile isDigit09) = true then
      some (letters ++ '-' :: (ds ++ r).takeWhile isDigit09,
        (ds ++ r).dropWhile isDigit09)
    else none) = some (letters ++ '-' :: ds, r)
  rw [htd, hdd, if_pos ⟨hds, hb⟩]

/-- A match attempt succeeds exactly on the anchored ticket pattern followed
by a word boundary: `tryMatchAt l` yields `m` with remainder `r` iff `m`
matches the anchored pattern of `isValidTicketId`, `m` is an initial part of
`l` with remainder `r`, and `r` starts at a word boundary.  This nails the
scanned matches to the specification's pattern. -/
theorem tryMatchAt_iff (l m r : List Char) :
    tryMatchAt l = some (m, r) ↔
      (validTicketPattern m = true ∧ l = m ++ r ∧ boundaryAfter r = true) := by
  constructor
  · intro h
    obtain ⟨letters, digits, hm, hl, hlet, hlen2, hlen10, hdig, hdlen, hb⟩ :=
      tryMatchAt_some h
    refine ⟨?_, hl, hb⟩
    subst hm
    have h1 : (letters ++ '-' :: digits).takeWhile isUpperAZ = letters := by
      rw [takeWhile_append_all letters ('-' :: digits) hlet]
      simp [List.takeWhile_cons, show isUpperAZ '-' = false from rfl]
    have h2 : (letters ++ '-' :: digits).dropWhile isUpperAZ = '-' :: digits := by
      rw [dropWhile_append_all letters ('-' :: digits) hlet]
      simp [List.dropWhile_cons, show isUpperAZ '-' = false from rfl]
    unfold validTicketPattern
    rw [h1, h2]
    show (decide (2 ≤ letters.length ∧ letters.length ≤ 10) &&
      (!digits.isEmpty && digits.all isDigit09)) = true
    simp only [Bool.and_eq_true, decide_eq_true_eq, List.all_eq_true,
      Bool.not_eq_true']
    refine ⟨⟨hlen2, hlen10⟩, ?_, hdig⟩
    cases digits with
    | nil => simp at hdlen
    | cons a as => simp
  · rintro ⟨hv, hl, hb⟩
    unfold validTicketPattern at hv
    split at hv
    case _ ds heq =>
      simp only [Bool.and_eq_true, decide_eq_true_eq, Bool.not_eq_true',
        List.all_eq_true] at hv
      obtain ⟨⟨hlen2, hlen10⟩, hne, hdigits⟩ := hv
      have hmdecomp : m.takeWhile isUpperAZ ++ '-' :: ds = m := by
        rw [← heq]; exact List.takeWhile_append_dropWhile isUpperAZ m
      have hletters : ∀ x ∈ m.takeWhile isUpperAZ, isUpperAZ x = true :=
        fun x hx => List.mem_takeWhile_imp hx
      have hrd : r.takeWhile isDigit09 = [] ∧ r.dropWhile isDigit09 = r := by
        cases r with
        | nil => exact ⟨rfl, rfl⟩
        | cons c' r' =>
          simp only [boundaryAfter, Bool.not_eq_true'] at hb
          have hnd : isDigit09 c' = false := by
            cases hdc : isDigit09 c'
            · rfl
            · rw [isWordChar_of_digit hdc] at hb; cases hb
          exact ⟨by simp [List.takeWhile_cons, hnd],
            by simp [List.dropWhile_cons, hnd]⟩
      have hassoc : m ++ r = m.takeWhile isUpperAZ ++ ('-' :: (ds ++ r)) := by
        conv_lhs => rw [← hmdecomp]
        simp
      subst hl
      have hres := tryMatchAt_build (m ++ r) (m.takeWhile isUpperAZ) ds r
        (by rw [hassoc, takeWhile_append_all _ _ hletters]
            simp [List.takeWhile_cons, show isUpperAZ '-' = false from rfl])
        (by rw [hassoc, dropWhile_append_all _ _ hletters]
            simp [List.dropWhile_cons, show isUpperAZ '-' = false from rfl])
        ⟨hlen2, hlen10⟩
        (by rw [takeWhile_append_all ds r hdigits, hrd.1, List.append_nil])
        (by rw [dropWhile_append_all ds r hdigits, hrd.2])
        (by cases ds with
            | nil => simp at hne
            | cons a as => simp)
        hb
      rw [hres, hmdecomp]
    case _ =>
      simp at hv

/-- No match attempt succeeds at a digit: the letter run is empty. -/
theorem tryMatchAt_digit_head {d : Char} (hd : isDigit09 d = true) (l : List Char) :
    tryMatchAt (d :: l) = none := by
  unfold tryMatchAt
  rw [List.takeWhile_cons, not_upper_of_digit hd]
  simp

/-- Walking the occurrence enumeration over a run of word characters with the
previous character already a word character reveals no occurrence. -/
theorem occurrencesFrom_wordRun (xs : List Char) (l : List Char)
    (hxs : ∀ x ∈ xs, isWordChar x = true) :
    occurrencesFrom true (xs ++ l) = occurrencesFrom true l := by
  induction xs with
  | nil => rfl
  | cons x xs ih =>
    have hx : isWordChar x = true := hxs x (by simp)
    simp only [List.cons_append, occurrencesFrom, hx]
    exact ih fun y hy => hxs y (by simp [hy])

/-- Walking the occurrence enumeration over the digit run of a match (whose
previous character is the hyphen) reveals no occurrence and leaves a
word-character state. -/
theorem occurrencesFrom_digitRun (digits rest3 : List Char)
    (hd : ∀ x ∈ digits, isDigit09 x = true) (hne : 1 ≤ digits.length) :
    occurrencesFrom false (digits ++ rest3) = occurrencesFrom true rest3 := by
  cases digits with
  | nil => simp at hne
  | cons d dt =>
    have hdd : isDigit09 d = true := hd d (by simp)
    simp only [List.cons_append, occurrencesFrom, tryMatchAt_digit_head hdd,
      isWordChar_of_digit hdd, ite_self, List.nil_append]
    exact occurrencesFrom_wordRun dt rest3
      fun y hy => isWordChar_of_digit (hd y (by simp [hy]))

/-- The scanner that resumes after each match produces exactly the
per-position whole-word occurrence list: matches cannot overlap, because
every character inside a match either continues a word run or is not a
possible match start. -/
theorem scanMatches_eq_occurrences (prevIsWord : Bool) (l : List Char) :
    scanMatches prevIsWord l = occurrencesFrom prevIsWord l := by
  induction prevIsWord, l using scanMatches.induct with
  | case1 prevIsWord =>
    rw [scanMatches.eq_def]
    rfl
  | case2 c tail ih =>
    rw [scanMatches.eq_def]
    show scanMatches (isWordChar c) tail = occurrencesFrom true (c :: tail)
    rw [ih]
    simp [occurrencesFrom]
  | case3 prevIsWord c tail hpw m rest3 h ih =>
    simp only [Bool.not_eq_true] at hpw
    subst hpw
    rw [scanMatches.eq_def]
    simp only [Bool.false_eq_true, if_false]
    split
    case _ m' rest3' heq =>
      rw [h] at heq
      simp only [Option.some.injEq, Prod.mk.injEq] at heq
      obtain ⟨hme, hre⟩ := heq
      subst hme; subst hre
      rw [ih]
      obtain ⟨letters, digits, hm, hl, hlet, hlen2, hlen10, hdig, hdlen, hb⟩ :=
        tryMatchAt_some h
      cases letters with
      | nil => simp at hlen2
      | cons a lt =>
        simp only [hm, List.cons_append, List.append_assoc, List.cons.injEq] at hl
        obtain ⟨hac, hrest⟩ := hl
        subst hac
        have ha : isUpperAZ c = true := hlet c (by simp)
        conv_rhs => rw [occurrencesFrom]
        rw [h, hrest, isWordChar_of_upper ha,
          occurrencesFrom_wordRun lt _
            (fun y hy => isWordChar_of_upper (hlet y (by simp [hy])))]
        conv_rhs => rw [occurrencesFrom]
        rw [show isWordChar '-' = false from rfl,
          occurrencesFrom_digitRun digits rest3 hdig hdlen]
        simp
    case _ heq =>
      rw [h] at heq
      simp at heq
  | case4 prevIsWord c tail hpw h ih =>
    simp only [Bool.not_eq_true] at hpw
    subst hpw
    rw [scanMatches.eq_def]
    simp only [Bool.false_eq_true, if_false]
    split
    case _ m' rest3' heq =>
      rw [h] at heq
      simp at heq
    case _ heq =>
      rw [ih]
      conv_rhs => rw [occurrencesFrom]
      rw [h]
      simp

/-! ### First-seen deduplication -/

/-- The accumulator version of first-seen deduplication agrees with the
left fold that appends each element on first sight. -/
theorem dedupFirstAux_eq_foldl (l : List String) : ∀ seen acc : List String,
    (∀ x, x ∈ seen ↔ x ∈ acc) →
    acc ++ dedupFirstAux seen l =
      l.foldl (fun acc x => if x ∈ acc then acc else acc ++ [x]) acc := by
  induction l with
  | nil => intro seen acc h; simp [dedupFirstAux]
  | cons x xs ih =>
    intro seen acc h
    simp only [dedupFirstAux, List.foldl_cons]
    by_cases hx : x ∈ seen
    · rw [if_pos hx, if_pos ((h x).mp hx)]
      exact ih seen acc h
    · rw [if_neg hx, if_neg (fun hc => hx ((h x).mpr hc))]
      have hshift : acc ++ x :: dedupFirstAux (x :: seen) xs
          = (acc ++ [x]) ++ dedupFirstAux (x :: seen) xs := by simp
      rw [hshift]
      exact ih (x :: seen) (acc ++ [x]) (by
        intro y
        simp only [List.mem_cons, List.mem_append, List.mem_singleton, h y]
        tauto)

/-- `[...new Set(xs)]` equals the spec's first-seen fold. -/
theorem dedupFirst_eq_firstSeen (l : List String) : dedupFirst l = firstSeen l := by
  have h := dedupFirstAux_eq_foldl l [] [] (by simp)
  simpa [dedupFirst, firstSeen] using h

/-- First-seen deduplication has no duplicates and avoids the seen set. -/
theorem dedupFirstAux_nodup (l : List String) : ∀ seen : List String,
    (dedupFirstAux seen l).Nodup ∧ ∀ x ∈ dedupFirstAux seen l, x ∉ seen := by
  induction l with
  | nil => intro seen; simp [dedupFirstAux]
  | cons x xs ih =>
    intro seen
    simp only [dedupFirstAux]
    by_cases hx : x ∈ seen
    · rw [if_pos hx]; exact ih seen
    · rw [if_neg hx]
      obtain ⟨hnd, hni⟩ := ih (x :: seen)
      refine ⟨List.nodup_cons.mpr ⟨fun hc => (hni x hc) (by simp), hnd⟩, ?_⟩
      intro y hy
      rcases List.mem_cons.mp hy with h1 | h2
      · subst h1; exact hx
      · exact fun hys => (hni y h2) (by simp [hys])

/-- Evaluation form of `extractTicketIds` through the structural occurrence
enumeration. -/
theorem extractTicketIds_eq (message : String) :
    extractTicketIds message =
      dedupFirst ((occurrencesFrom false message.data).map (fun m => String.mk m)) := by
  unfold extractTicketIds
  rw [scanMatches_eq_occurrences]

/-- C2: `extractTicketIds` returns exactly the whole-word occurrences of the
case-sensitive pattern (2–10 uppercase letters, a hyphen, one or more
digits), each distinct identifier exactly once, in order of first
appearance; a text containing no such occurrence yields the empty list. -/
theorem C2_extract_ticket_ids (message : String) :
    extractTicketIds message =
      firstSeen ((occurrencesFrom false message.data).map (fun m => String.mk m)) ∧
    (extractTicketIds message).Nodup ∧
    (occurrencesFrom false message.data = [] → extractTicketIds message = []) := by
  refine ⟨?_, ?_, fun h => ?_⟩
  · rw [extractTicketIds_eq, dedupFirst_eq_firstSeen]
  · rw [extractTicketIds_eq]
    exact (dedupFirstAux_nodup _ []).1
  · rw [extractTicketIds_eq, h]
    rfl

/-- C2 witness: a commit message with two tickets, one repeated, extracts
both in first-seen order, and non-matching text (lowercase, single-letter
run, eleven-letter run, no digits) extracts nothing. -/
theorem C2_extract_ticket_ids_witness :
    extractTicketIds "AB-1 CD-2 then AB-1 again" = ["AB-1", "CD-2"] ∧
    extractTicketIds "fix bug ab-1 A-2 ABCDEFGHIJK-3 XY-" = [] := by
  constructor
  · rw [(C2_extract_ticket_ids "AB-1 CD-2 then AB-1 again").1]
    decide
  · exact (C2_extract_ticket_ids "fix bug ab-1 A-2 ABCDEFGHIJK-3 XY-").2.2 (by decide)

/-- C5: with a supplied grouping key, `parseCommits` keeps per commit exactly
the extracted identifiers that start with the key followed by a hyphen, and
drops every commit with no surviving identifier instead of producing an
empty-array entry. -/
theorem C5_parse_commits_scoping (commits : List Commit) (key : String)
    (hkey : key ≠ "") :
    parseCommits commits (some key) =
      commits.filterMap (fun commit =>
        let surviving := (extractTicketIds commit.message).filter
          (fun tid => strStartsWith tid (key ++ "-"))
        if surviving.length = 0 then none
        else some { sha := commit.id, message := firstLine commit.message,
                    author := commit.author.name, ticketIds := surviving }) := by
  induction commits with
  | nil => rfl
  | cons commit rest ih =>
    have ht : jsTruthy (some key) = true := by simp [jsTruthy, hkey]
    simp only [parseCommits, List.filterMap_cons, Option.getD]
    rw [if_pos ht]
    by_cases hz : ((extractTicketIds commit.message).filter
        (fun tid => strStartsWith tid (key ++ "-"))).length = 0
    · have hlt : ¬ 0 < ((extractTicketIds commit.message).filter
          (fun tid => strStartsWith tid (key ++ "-"))).length := by omega
      rw [if_neg hlt, if_pos hz]
      exact ih
    · have hgt : 0 < ((extractTicketIds commit.message).filter
          (fun tid => strStartsWith tid (key ++ "-"))).length := by omega
      rw [if_pos hgt, if_neg hz]
      rw [ih]

/-- C5 witness: with grouping key "AB", a commit containing `AB-1` and `CD-2`
keeps only `AB-1`; the same commit scoped to key "ZZ" is dropped entirely. -/
theorem C5_parse_commits_scoping_witness :
    parseCommits [mixedCommit] (some "AB") =
      [{ sha := "f00dfeedf00dfeedf00dfeedf00dfeedf00dfeed",
         message := "AB-1 CD-2 fix login", author := "Alice",
         ticketIds := ["AB-1"] }] ∧
    parseCommits [mixedCommit] (some "ZZ") = [] := by
  constructor
  · rw [C5_parse_commits_scoping [mixedCommit] "AB" (by decide)]
    simp only [extractTicketIds_eq]
    decide
  · rw [C5_parse_commits_scoping [mixedCommit] "ZZ" (by decide)]
    simp only [extractTicketIds_eq]
    decide

end PMUpdater
